import Mathlib

/-!
Shallow embedding of the cylc job-submission subsystem:
  * `src/cylc/flow/batch_sys_handlers/slurm.py` (`SLURMHandler`):
    `filter_poll_many_output`, `format_directives`;
  * `src/src/job-submission/job_submit.py` (`job_submit`):
    constructor identity/locality resolution, `submit_jobfile_remote`.

Python-level conventions used throughout the embedding:
  * an ordered dictionary is a `List (String × String)` with unique keys;
    assignment `d[k] = v` (`setOD`) updates an existing key in place
    (keeping its position) and appends a new key at the end;
  * a Python `set` of strings is a `List String` used up to membership;
  * string truthiness: the empty string is falsy;
  * `Option` models Python `None`.
-/

namespace Cylc

/-! ## Ordered-dictionary model (Python `dict` insertion-order semantics) -/

/-- Lookup in an ordered dictionary: `d.get(k)`. -/
def getOD (d : List (String × String)) (k : String) : Option String :=
  (d.find? (fun p => p.1 = k)).map Prod.snd

/-- Assignment `d[k] = v`: update in place if `k` is present, else append. -/
def setOD : List (String × String) → String → String → List (String × String)
  | [], k, v => [(k, v)]
  | (k0, v0) :: rest, k, v =>
    if k0 = k then (k0, v) :: rest else (k0, v0) :: setOD rest k v

/-- Merge loop `for key, value in items: d[key] = value`. -/
def mergeOD (d us : List (String × String)) : List (String × String) :=
  us.foldl (fun acc kv => setOD acc kv.1 kv.2) d

/-- The value the merge loop assigns to key `k` (the last assignment wins),
`none` when `us` never assigns `k`. -/
def lastAssign : List (String × String) → String → Option String
  | [], _ => none
  | kv :: rest, k =>
    match lastAssign rest k with
    | some v => some v
    | none => if kv.1 = k then some kv.2 else none

theorem getOD_nil (k : String) : getOD [] k = none := rfl

theorem getOD_cons (k0 v0 k : String) (d : List (String × String)) :
    getOD ((k0, v0) :: d) k = if k0 = k then some v0 else getOD d k := by
  by_cases h : k0 = k <;> simp [getOD, List.find?, h]

theorem getOD_setOD (d : List (String × String)) (k q v : String) :
    getOD (setOD d q v) k = if k = q then some v else getOD d k := by
  induction d with
  | nil =>
    show getOD [(q, v)] k = if k = q then some v else none
    rw [getOD_cons]
    by_cases h : k = q
    · rw [if_pos h.symm, if_pos h]
    · rw [if_neg (fun hh => h hh.symm), if_neg h, getOD_nil]
  | cons hd tl ih =>
    obtain ⟨k0, v0⟩ := hd
    show getOD (if k0 = q then (k0, v) :: tl else (k0, v0) :: setOD tl q v) k = _
    by_cases h0 : k0 = q
    · rw [if_pos h0, getOD_cons]
      subst h0
      by_cases h : k0 = k
      · rw [if_pos h, if_pos h.symm]
      · rw [if_neg h, if_neg (fun hh => h hh.symm), getOD_cons, if_neg h]
    · rw [if_neg h0, getOD_cons, ih, getOD_cons]
      by_cases h : k0 = k
      · have hq : ¬k = q := fun hh => h0 (h.trans hh)
        rw [if_pos h, if_neg hq, if_pos h]
      · rw [if_neg h]
        by_cases h2 : k = q
        · rw [if_pos h2, if_pos h2]
        · rw [if_neg h2, if_neg h2, if_neg h]

theorem getOD_mergeOD (us : List (String × String)) (d : List (String × String))
    (k : String) :
    getOD (mergeOD d us) k =
      match lastAssign us k with
      | some v => some v
      | none => getOD d k := by
  induction us generalizing d with
  | nil => rfl
  | cons kv rest ih =>
    have hstep : mergeOD d (kv :: rest) = mergeOD (setOD d kv.1 kv.2) rest := rfl
    have hl : lastAssign (kv :: rest) k =
        match lastAssign rest k with
        | some v => some v
        | none => if kv.1 = k then some kv.2 else none := rfl
    rw [hstep, ih, hl]
    cases hrest : lastAssign rest k with
    | some v => rfl
    | none =>
      rw [getOD_setOD]
      by_cases h : k = kv.1
      · simp [h]
      · simp [h, Ne.symm h]

theorem getOD_none_lastAssign (us : List (String × String)) (k : String)
    (h : getOD us k = none) : lastAssign us k = none := by
  induction us with
  | nil => rfl
  | cons kv rest ih =>
    obtain ⟨k0, v0⟩ := kv
    rw [getOD_cons] at h
    by_cases hk : k0 = k
    · rw [if_pos hk] at h
      exact absurd h (by simp)
    · rw [if_neg hk] at h
      have hla : lastAssign rest k = none := ih h
      show (match lastAssign rest k with
            | some w => some w
            | none => if k0 = k then some v0 else none) = none
      rw [hla, if_neg hk]

theorem getOD_some_mem (us : List (String × String)) (k w : String)
    (h : getOD us k = some w) : k ∈ us.map Prod.fst := by
  induction us with
  | nil => exact absurd h (by simp [getOD])
  | cons kv rest ih =>
    obtain ⟨k0, v0⟩ := kv
    rw [getOD_cons] at h
    by_cases hk : k0 = k
    · simp [hk]
    · rw [if_neg hk] at h
      simp [ih h]

/-- With unique keys, the first binding found is also the last assignment. -/
theorem lastAssign_of_nodup (us : List (String × String)) (k v : String)
    (hnd : (us.map Prod.fst).Nodup) (h : getOD us k = some v) :
    lastAssign us k = some v := by
  induction us with
  | nil => exact absurd h (by simp [getOD])
  | cons kv rest ih =>
    obtain ⟨k0, v0⟩ := kv
    rw [List.map_cons, List.nodup_cons] at hnd
    rw [getOD_cons] at h
    by_cases hk : k0 = k
    · rw [if_pos hk] at h
      have hv : v0 = v := by injection h
      have hnone : getOD rest k = none := by
        cases hg : getOD rest k with
        | none => rfl
        | some w =>
          exact absurd (hk ▸ getOD_some_mem rest k w hg) hnd.1
      have hla : lastAssign rest k = none := getOD_none_lastAssign rest k hnone
      show (match lastAssign rest k with
            | some w => some w
            | none => if k0 = k then some v0 else none) = some v
      rw [hla, if_pos hk, hv]
    · rw [if_neg hk] at h
      have hla := ih hnd.2 h
      show (match lastAssign rest k with
            | some w => some w
            | none => if k0 = k then some v0 else none) = some v
      rw [hla]

/-! ## Python library primitives used by the handler

`os.path.expandvars`, `str.splitlines`, `str.replace('%', '%%')` and the two
regular expressions of `SLURMHandler` are modelled below, character by
character, matching the POSIX/CPython behaviour the source relies on. -/

/-- Characters forming a `\w` environment-variable name in
`os.path.expandvars` (ASCII letters, digits, underscore). -/
def isVarChar (c : Char) : Bool :=
  c.isAlpha || c.isDigit || c = '_'

/-- Lookup in the process environment (`os.environ`). -/
def lookupEnv (env : List (String × String)) (n : String) : Option String :=
  (env.find? (fun p => p.1 = n)).map Prod.snd

/-- Core of `os.path.expandvars`: substitute `$name` and `${name}`
occurrences whose name is bound in `env`; leave unknown names and
malformed references untouched.  The scan consumes at least one character
per step, so a fuel equal to the input length (as supplied by
`expandvars`) never runs out; the fuel only makes the recursion
structural. -/
def expandVarsAux (env : List (String × String)) : Nat → List Char → List Char
  | _, [] => []
  | 0, cs => cs
  | fuel + 1, c :: rest =>
    if c = '$' then
      if rest.head? = some '{' then
        let rest2 : List Char := rest.tail
        if ('}' ∈ rest2) then
          let name : List Char := rest2.takeWhile (fun d => !(d = '}'))
          let tail : List Char := (rest2.dropWhile (fun d => !(d = '}'))).tail
          (match lookupEnv env (String.mk name) with
           | some v => v.data
           | none => '$' :: '{' :: (name ++ ['}'])) ++ expandVarsAux env fuel tail
        else '$' :: '{' :: expandVarsAux env fuel rest2
      else
        let name : List Char := rest.takeWhile isVarChar
        if name = [] then '$' :: expandVarsAux env fuel rest
        else
          (match lookupEnv env (String.mk name) with
           | some v => v.data
           | none => '$' :: name) ++ expandVarsAux env fuel (rest.drop name.length)
    else c :: expandVarsAux env fuel rest

/-- `os.path.expandvars(path)` against environment `env`. -/
def expandvars (env : List (String × String)) (s : String) : String :=
  String.mk (expandVarsAux env s.data.length s.data)

/-- `path.replace('%', '%%')`. -/
def pctDouble (s : String) : String :=
  String.mk (s.data.foldr (fun c acc => if c = '%' then '%' :: '%' :: acc else c :: acc) [])

/-- Split a character list at every newline (the pieces, newline chars
dropped; always at least one piece). -/
def splitOnNl : List Char → List (List Char)
  | [] => [[]]
  | c :: rest =>
    if c = '\n' then [] :: splitOnNl rest
    else
      match splitOnNl rest with
      | l :: ls => (c :: l) :: ls
      | [] => [[c]]

/-- `str.splitlines()` for newline-separated text: like splitting on
`'\n'`, except that a trailing newline does not yield a final empty line
and the empty string yields no lines. -/
def splitlines (s : String) : List String :=
  if s.data = [] then []
  else
    let parts := (splitOnNl s.data).map String.mk
    if s.data.getLast? = some '\n' then parts.dropLast else parts

/-! ## `SLURMHandler` (src/cylc/flow/batch_sys_handlers/slurm.py) -/

/-- `SLURMHandler.SEP_HETJOB`: separator between het job directive
sections. -/
def SEP_HETJOB : String := "#SBATCH hetjob"

/-- Match of `REC_ID_FROM_POLL_OUT = re.compile(r"^ *(?P<id>\d+)")` against
one line: zero or more leading spaces, then at least one digit; returns the
captured digit run. -/
def matchPollId (line : String) : Option String :=
  let ds : List Char := (line.data.dropWhile (fun c => c = ' ')).takeWhile Char.isDigit
  if ds = [] then none else some (String.mk ds)

/-- Match of `REC_HETJOB = re.compile(r"^hetjob_(\d+)_")` against a
directive key, returning the captured group index and the key with the
matched prefix removed (`REC_HETJOB.sub('', key)`). -/
def hetGroup (k : String) : Option (String × String) :=
  match k.data with
  | 'h' :: 'e' :: 't' :: 'j' :: 'o' :: 'b' :: '_' :: rest =>
    let ds : List Char := rest.takeWhile Char.isDigit
    match rest.dropWhile Char.isDigit with
    | '_' :: tail => if ds = [] then none else some (String.mk ds, String.mk tail)
    | _ => none
  | _ => none

/-- One emitted directive line: `"%s%s=%s" % (DIRECTIVE_PREFIX, key, value)`
when the value is truthy, else `"%s%s" % (DIRECTIVE_PREFIX, key)`. -/
def mkLine (k v : String) : String :=
  if v = "" then "#SBATCH " ++ k else "#SBATCH " ++ k ++ "=" ++ v

/-- The emission loop of `format_directives`: walks the merged directives in
order, tracking the het-group indices already `seen`, prepending the group
separator the first time a non-"0" group index appears. -/
def emitAux (seen : List String) : List (String × String) → List String
  | [] => []
  | (k, v) :: rest =>
    match hetGroup k with
    | some (n, nk) =>
      (if n ≠ "0" ∧ n ∉ seen then [SEP_HETJOB] else []) ++
        (mkLine nk v :: emitAux (n :: seen) rest)
    | none => mkLine k v :: emitAux seen rest

/-- The `job_conf` fields read by `SLURMHandler.format_directives`. -/
structure JobConf where
  job_file_path : String
  task_id : String
  suite_name : String
  /-- `job_conf["execution_time_limit"]` in whole seconds; `0` models the
  falsy values (`None`, `0`). -/
  execution_time_limit : Nat
  directives : List (String × String)

/-- `"%d:%02d" % (limit / 60, limit % 60)` for a whole-second limit. -/
def fmtTimeLimit (n : Nat) : String :=
  toString (n / 60) ++ ":" ++
    (if n % 60 < 10 then "0" ++ toString (n % 60) else toString (n % 60))

/-- The fresh ordered dictionary after the first three assignments of
`format_directives`: `--job-name`, `--output` and `--error` (the two
output paths are the environment-expanded job-file path with `%` doubled,
suffixed `.out` / `.err`). -/
def base3 (env : List (String × String)) (conf : JobConf) :
    List (String × String) :=
  setOD
    (setOD
      (setOD [] "--job-name" (conf.task_id ++ "." ++ conf.suite_name))
      "--output" (pctDouble (expandvars env conf.job_file_path) ++ ".out"))
    "--error" (pctDouble (expandvars env conf.job_file_path) ++ ".err")

/-- The fresh ordered dictionary built by `format_directives` before user
directives are merged: `base3` plus the `--time` injection guarded by a
truthy `execution_time_limit` and by the absence of `--time` from the
dictionary built so far. -/
def baseDirectives (env : List (String × String)) (conf : JobConf) :
    List (String × String) :=
  if conf.execution_time_limit ≠ 0 ∧ getOD (base3 env conf) "--time" = none then
    setOD (base3 env conf) "--time" (fmtTimeLimit conf.execution_time_limit)
  else base3 env conf

/-- The merged ordered dictionary: base directives overwritten/extended by
the user's directives in their original order. -/
def mergedDirectives (env : List (String × String)) (conf : JobConf) :
    List (String × String) :=
  mergeOD (baseDirectives env conf) conf.directives

/-- `SLURMHandler.format_directives(job_conf)`, with the process
environment (read via `os.path.expandvars`) made explicit. -/
def format_directives (env : List (String × String)) (conf : JobConf) :
    List String :=
  emitAux [] (mergedDirectives env conf)

/-- `SLURMHandler.filter_poll_many_output(out)`: the set of job IDs
extracted from poll stdout, modelled as a duplicate-free list in first-seen
order. -/
def filter_poll_many_output (out : String) : List String :=
  (splitlines out).foldl
    (fun job_ids line =>
      match matchPollId line with
      | some i => if i ∈ job_ids then job_ids else job_ids ++ [i]
      | none => job_ids)
    []

/-! ## `job_submit` (src/src/job-submission/job_submit.py)

The constructor's identity/locality resolution and the remote submission
path are embedded as pure functions.  The process-wide class variables
(`job_submit.simulation_mode`, defaults) and the process environment
(`os.environ['USER']`, the `pwd` identity database) are explicit
parameters. -/

/-- Modelled from the spec: the command stub substituted in simulation
mode.  The `dummy` module (`dummy_command`) is not under `src/`; the spec
only requires that simulation mode substitutes the task command with a
stub. -/
def dummy_command : String := "cylc-dummy-task"

/-- Modelled from the spec: the failing variant of the simulation-mode
stub (`dummy_command_fail` from the `dummy` module, not under `src/`),
substituted for the designated failout task. -/
def dummy_command_fail : String := "cylc-dummy-task --fail"

/-- The class variables of `job_submit` read during construction. -/
structure ClassVars where
  simulation_mode : Bool
  failout_id : Option String
  global_task_owner : Option String
  global_remote_host : Option String

/-- The process identity environment: `os.environ['USER']` and the `pwd`
database (`pwd.getpwnam(name)[5]`, the home-directory field; `none` models
`getpwnam` raising `KeyError`). -/
structure IdentityEnv where
  user : String
  pwdHome : String → Option String

/-- Per-task constructor arguments relevant to identity and locality
(falsy arguments are `none`). -/
structure InitArgs where
  task_id : String
  task_command : String
  task_owner : Option String
  remote_host : Option String

/-- The Python exception the constructor can raise; `raise SystemExit`
terminates the process when uncaught. -/
inductive PyExc where
  | systemExit (msg : String)
deriving DecidableEq, Repr

/-- The constructor state fields settled by the identity/locality part of
`job_submit.__init__`. -/
structure InitState where
  task_command : String
  task_owner : String
  other_owner : Bool
  local_job_submit : Bool
  homedir : Option String
deriving DecidableEq, Repr

/-- Owner resolution at the top of `__init__`: explicit per-task owner,
else the process-wide default owner, else the submitting user; the flag is
`other_owner`. -/
def resolveOwner (cv : ClassVars) (user : String) (a : InitArgs) :
    String × Bool :=
  match a.task_owner with
  | some o => (o, true)
  | none =>
    match cv.global_task_owner with
    | some o => (o, true)
    | none => (user, false)

/-- The identity/locality resolution of `job_submit.__init__`: simulation
stub substitution, owner resolution, local-vs-remote decision, and (for
local submission) home-directory resolution through the `pwd` database,
whose failure raises `SystemExit`. -/
def jobSubmitInit (cv : ClassVars) (env : IdentityEnv) (a : InitArgs) :
    Except PyExc InitState :=
  let task_command :=
    if cv.simulation_mode then
      if cv.failout_id ≠ some a.task_id then dummy_command else dummy_command_fail
    else a.task_command
  let suite_owner := env.user
  let (task_owner, other_owner) := resolveOwner cv suite_owner a
  if a.remote_host.isSome || cv.global_remote_host.isSome then
    if cv.simulation_mode then
      .ok ⟨task_command, task_owner, other_owner, true, none⟩
    else
      .ok ⟨task_command, task_owner, other_owner, false, none⟩
  else
    let task_owner := if cv.simulation_mode then suite_owner else task_owner
    match env.pwdHome task_owner with
    | some h => .ok ⟨task_command, task_owner, other_owner, true, some h⟩
    | none =>
      .error (.systemExit
        ("ERROR: task " ++ a.task_id ++ " owner (" ++ task_owner ++
          "): home dir not found"))

/-- Outcome of one `subprocess.call(cmd, shell=True)`: the return code, or
an `OSError` while spawning. -/
inductive CallResult where
  | exited (code : Int)
  | spawnFailure
deriving DecidableEq, Repr

/-- The outcome classification applied after each `subprocess.call`:
negative return code (killed by signal) is failure, positive is failure,
zero is success; failure to spawn (`OSError`) is failure. -/
def judge : CallResult → Bool
  | .exited code => code = 0
  | .spawnFailure => false

/-- What a run of `submit_jobfile_remote` did: the shell commands it
actually executed (none in a dry run) and the returned success flag. -/
structure RemoteSubmitOutcome where
  executed : List String
  success : Bool
deriving DecidableEq, Repr

/-- `job_submit.submit_jobfile_remote(dry_run)`.  `scpRes` and `sshRes`
are the outcomes of the two `subprocess.call` invocations (`command_1`,
the scp transfer, and `command_2`, the remote execution); the function
mirrors the source control flow: the scp block sets `success`, then the
ssh block runs unconditionally in a non-dry run and reassigns `success`. -/
def submit_jobfile_remote (jobfile_path task_owner remote_host command : String)
    (dry_run : Bool) (scpRes sshRes : CallResult) : RemoteSubmitOutcome :=
  let destination := task_owner ++ "@" ++ remote_host
  let command_1 := "scp " ++ jobfile_path ++ " " ++ destination ++ ":"
  let success := if dry_run then true else judge scpRes
  let executed : List String := if dry_run then [] else [command_1]
  let command_2 := "ssh " ++ destination ++ " '" ++ command ++ "'"
  if dry_run then
    { executed := executed, success := success }
  else
    { executed := executed ++ [command_2], success := judge sshRes }

/-! ## Supporting lemmas about the directive pipeline -/

theorem getOD_base3_time (env : List (String × String)) (conf : JobConf) :
    getOD (base3 env conf) "--time" = none := by
  unfold base3
  rw [getOD_setOD, getOD_setOD, getOD_setOD, getOD_nil]
  rw [if_neg (by decide), if_neg (by decide), if_neg (by decide)]

theorem getOD_baseDirectives (env : List (String × String)) (conf : JobConf)
    (k : String) (hk : k ≠ "--time") :
    getOD (baseDirectives env conf) k = getOD (base3 env conf) k := by
  unfold baseDirectives
  by_cases hc : conf.execution_time_limit ≠ 0 ∧ getOD (base3 env conf) "--time" = none
  · rw [if_pos hc, getOD_setOD, if_neg hk]
  · rw [if_neg hc]

theorem getOD_baseDirectives_time (env : List (String × String)) (conf : JobConf)
    (hlim : conf.execution_time_limit ≠ 0) :
    getOD (baseDirectives env conf) "--time"
      = some (fmtTimeLimit conf.execution_time_limit) := by
  unfold baseDirectives
  rw [if_pos ⟨hlim, getOD_base3_time env conf⟩, getOD_setOD, if_pos rfl]

theorem mem_of_getOD (d : List (String × String)) (k v : String)
    (h : getOD d k = some v) : (k, v) ∈ d := by
  induction d with
  | nil => exact absurd h (by simp [getOD])
  | cons kv rest ih =>
    obtain ⟨k0, v0⟩ := kv
    rw [getOD_cons] at h
    by_cases hk : k0 = k
    · rw [if_pos hk] at h
      have hv : v0 = v := by injection h
      subst hk; subst hv
      exact List.mem_cons_self _ _
    · rw [if_neg hk] at h
      exact List.mem_cons_of_mem _ (ih h)

/-- A non-het-prefixed binding present in the directives produces its line
in the emission loop's output, under any `seen` state. -/
theorem mkLine_mem_emitAux (d : List (String × String)) (k v : String)
    (seen : List String) (hmem : (k, v) ∈ d) (hg : hetGroup k = none) :
    mkLine k v ∈ emitAux seen d := by
  induction d generalizing seen with
  | nil => simp at hmem
  | cons kv rest ih =>
    obtain ⟨k0, v0⟩ := kv
    rcases List.mem_cons.mp hmem with heq | htl
    · have hk : k0 = k := (Prod.mk.injEq .. ▸ heq.symm).1
      have hv : v0 = v := (Prod.mk.injEq .. ▸ heq.symm).2
      subst hk; subst hv
      show mkLine k0 v0 ∈ emitAux seen ((k0, v0) :: rest)
      unfold emitAux
      rw [hg]
      exact List.mem_cons_self _ _
    · show mkLine k v ∈ emitAux seen ((k0, v0) :: rest)
      unfold emitAux
      cases hg0 : hetGroup k0 with
      | some p =>
        obtain ⟨n, nk⟩ := p
        exact List.mem_append_right _ (List.mem_cons_of_mem _ (ih (n :: seen) htl))
      | none =>
        exact List.mem_cons_of_mem _ (ih seen htl)

/-! ## Claims -/

/-- C1: the claim states that for a non-dry-run remote submission, an scp
failure short-circuits before the ssh step and the submission returns
failure.  The code (`submit_jobfile_remote`) computes `success` from the
scp result but then unconditionally runs the ssh step and reassigns
`success` from its result.  Evaluating the embedding at the failing input
(`dry_run = False`, scp exits 1, ssh exits 0): the ssh command is executed
and the submission returns success — both halves of the claim fail. -/
theorem c1_scp_failure_not_short_circuited :
    judge (.exited 1) = false ∧
    (submit_jobfile_remote "jf" "alice" "hpc" "sbatch 'jf'" false
        (.exited 1) (.exited 0)).executed
      = ["scp jf alice@hpc:", "ssh alice@hpc 'sbatch 'jf''"] ∧
    (submit_jobfile_remote "jf" "alice" "hpc" "sbatch 'jf'" false
        (.exited 1) (.exited 0)).success = true := by
  refine ⟨rfl, ?_, rfl⟩
  decide

/-- C10: for every job configuration, the `--output` and `--error`
directives injected by `format_directives` are the (environment-expanded)
job-file path with every `%` doubled, suffixed `.out` and `.err`
respectively — in particular both share the same base path. -/
theorem c10_output_error_paths (env : List (String × String)) (conf : JobConf) :
    getOD (baseDirectives env conf) "--output"
      = some (pctDouble (expandvars env conf.job_file_path) ++ ".out") ∧
    getOD (baseDirectives env conf) "--error"
      = some (pctDouble (expandvars env conf.job_file_path) ++ ".err") := by
  constructor
  · rw [getOD_baseDirectives env conf _ (by decide)]
    unfold base3
    rw [getOD_setOD, if_neg (by decide), getOD_setOD, if_pos rfl]
  · rw [getOD_baseDirectives env conf _ (by decide)]
    unfold base3
    rw [getOD_setOD, if_pos rfl]

/-- C8: when the user directives carry no `--time` key and the
execution-time limit is a (truthy) whole number of seconds, the `--time`
value emitted by `format_directives` is the limit rendered
`minutes:seconds` with the seconds zero-padded to two digits; in
particular a limit of 3661 seconds renders as `61:01`. -/
theorem c8_time_limit_rendered (env : List (String × String)) (conf : JobConf)
    (hlim : conf.execution_time_limit ≠ 0)
    (huser : getOD conf.directives "--time" = none) :
    getOD (mergedDirectives env conf) "--time"
      = some (fmtTimeLimit conf.execution_time_limit) ∧
    fmtTimeLimit 3661 = "61:01" := by
  constructor
  · unfold mergedDirectives
    rw [getOD_mergeOD, getOD_none_lastAssign _ _ huser,
      getOD_baseDirectives_time env conf hlim]
  · rfl

/-- C8 witness: a limit of 3661 seconds with an empty user directive set
yields the `--time` value `61:01`. -/
theorem c8_witness :
    getOD (mergedDirectives [] (JobConf.mk "p" "t" "s" 3661 [])) "--time"
      = some "61:01" :=
  (c8_time_limit_rendered [] (JobConf.mk "p" "t" "s" 3661 [])
    (by decide) (by decide)).1

/-- C2: when the user directive set already contains the backend's native
time key `--time` (user directive sets have unique keys), the merged
dictionary binds `--time` to the user's value, every key's final value is
exactly what it would be with no execution-time limit set at all (the
controller's own time-limit value is never applied), and the user's
`--time` line appears in the emitted output. -/
theorem c2_user_time_wins (env : List (String × String)) (conf : JobConf)
    (v : String) (hnd : (conf.directives.map Prod.fst).Nodup)
    (huser : getOD conf.directives "--time" = some v) :
    getOD (mergedDirectives env conf) "--time" = some v ∧
    (∀ k, getOD (mergedDirectives env conf) k =
      getOD (mergedDirectives env { conf with execution_time_limit := 0 }) k) ∧
    (v ≠ "" → ("#SBATCH --time=" ++ v) ∈ format_directives env conf) := by
  have hla : lastAssign conf.directives "--time" = some v :=
    lastAssign_of_nodup conf.directives "--time" v hnd huser
  have hmain : getOD (mergedDirectives env conf) "--time" = some v := by
    unfold mergedDirectives
    rw [getOD_mergeOD, hla]
  refine ⟨hmain, ?_, ?_⟩
  · intro k
    unfold mergedDirectives
    rw [getOD_mergeOD, getOD_mergeOD]
    cases hk : lastAssign conf.directives k with
    | some w => rfl
    | none =>
      have hkt : k ≠ "--time" := by
        intro he
        rw [he, hla] at hk
        exact absurd hk (by simp)
      show getOD (baseDirectives env conf) k
        = getOD (baseDirectives env { conf with execution_time_limit := 0 }) k
      rw [getOD_baseDirectives env conf k hkt]
      rw [getOD_baseDirectives env { conf with execution_time_limit := 0 } k hkt]
      rfl
  · intro hv
    have hpair : ("--time", v) ∈ mergedDirectives env conf :=
      mem_of_getOD _ _ _ hmain
    have hline := mkLine_mem_emitAux (mergedDirectives env conf) "--time" v []
      hpair (by decide)
    rw [mkLine, if_neg hv] at hline
    exact hline

/-- C2 witness: with a user `--time = 10:00` and a limit of 3661 seconds,
the merged value stays `10:00`, agrees with the no-limit run, and the
user's line is emitted. -/
theorem c2_witness :
    getOD (mergedDirectives [] (JobConf.mk "p" "t" "s" 3661 [("--time", "10:00")]))
      "--time" = some "10:00" ∧
    getOD (mergedDirectives [] (JobConf.mk "p" "t" "s" 3661 [("--time", "10:00")]))
        "--time" =
      getOD (mergedDirectives [] (JobConf.mk "p" "t" "s" 0 [("--time", "10:00")]))
        "--time" ∧
    ("#SBATCH --time=10:00") ∈
      format_directives [] (JobConf.mk "p" "t" "s" 3661 [("--time", "10:00")]) := by
  have h := c2_user_time_wins [] (JobConf.mk "p" "t" "s" 3661 [("--time", "10:00")])
    "10:00" (by decide) (by decide)
  exact ⟨h.1, h.2.1 "--time", h.2.2 (by decide)⟩

/-- C9 counterexample: the claim states that `format_directives` depends
only on its arguments, with no reads of external process state.  But the
job-file path is passed through `os.path.expandvars`, which reads the
process environment: two calls with the same `job_conf` under different
environments give different output lines. -/
theorem c9_counterexample :
    format_directives [("A", "x")] (JobConf.mk "$A" "t" "s" 0 []) ≠
      format_directives [("A", "y")] (JobConf.mk "$A" "t" "s" 0 []) := by
  decide

/-- C9 amended: `format_directives` is deterministic in its arguments
*plus* the process environment, and the environment enters only through
the `expandvars` expansion of the job-file path: whenever two environments
expand the job-file path identically, the formatted output is identical. -/
theorem c9_deterministic_given_environment (conf : JobConf)
    (env1 env2 : List (String × String))
    (h : expandvars env1 conf.job_file_path = expandvars env2 conf.job_file_path) :
    format_directives env1 conf = format_directives env2 conf := by
  have hb : base3 env1 conf = base3 env2 conf := by
    unfold base3
    rw [h]
  unfold format_directives mergedDirectives baseDirectives
  rw [hb]

/-- C9 witness: two distinct environments that agree on the expansion of
the job-file path produce identical output. -/
theorem c9_witness :
    expandvars [("A", "x"), ("B", "1")] "$A" = expandvars [("A", "x")] "$A" ∧
    format_directives [("A", "x"), ("B", "1")] (JobConf.mk "$A" "t" "s" 0 []) =
      format_directives [("A", "x")] (JobConf.mk "$A" "t" "s" 0 []) :=
  ⟨by decide,
   c9_deterministic_given_environment (JobConf.mk "$A" "t" "s" 0 [])
     [("A", "x"), ("B", "1")] [("A", "x")] (by decide)⟩

/-- One step of the `filter_poll_many_output` loop adds exactly the ID of
a matching line. -/
theorem mem_pollStep (acc : List String) (line i : String) :
    (i ∈
      match matchPollId line with
      | some j => if j ∈ acc then acc else acc ++ [j]
      | none => acc) ↔
    i ∈ acc ∨ matchPollId line = some i := by
  cases hm : matchPollId line with
  | some j =>
    by_cases hj : j ∈ acc
    · simp only [if_pos hj]
      constructor
      · exact Or.inl
      · rintro (h | h)
        · exact h
        · have : j = i := by injection h
          exact this ▸ hj
    · simp only [if_neg hj, List.mem_append, List.mem_singleton]
      constructor
      · rintro (h | h)
        · exact Or.inl h
        · exact Or.inr (by rw [h])
      · rintro (h | h)
        · exact Or.inl h
        · exact Or.inr (by injection h with hv; exact hv.symm)
  | none => simp

theorem mem_pollFold (lines : List String) (acc : List String) (i : String) :
    (i ∈ lines.foldl
        (fun job_ids line =>
          match matchPollId line with
          | some j => if j ∈ job_ids then job_ids else job_ids ++ [j]
          | none => job_ids)
        acc) ↔
    i ∈ acc ∨ ∃ line ∈ lines, matchPollId line = some i := by
  induction lines generalizing acc with
  | nil => simp
  | cons l rest ih =>
    rw [List.foldl_cons, ih, mem_pollStep]
    constructor
    · rintro ((h | h) | ⟨line, hl, hm⟩)
      · exact Or.inl h
      · exact Or.inr ⟨l, List.mem_cons_self _ _, h⟩
      · exact Or.inr ⟨line, List.mem_cons_of_mem _ hl, hm⟩
    · rintro (h | ⟨line, hl, hm⟩)
      · exact Or.inl (Or.inl h)
      · rcases List.mem_cons.mp hl with rfl | hl2
        · exact Or.inl (Or.inr hm)
        · exact Or.inr ⟨line, hl2, hm⟩

/-- The `filter_poll_many_output` loop keeps its accumulator
duplicate-free. -/
theorem nodup_pollFold (lines : List String) (acc : List String)
    (hacc : acc.Nodup) :
    (lines.foldl
        (fun job_ids line =>
          match matchPollId line with
          | some j => if j ∈ job_ids then job_ids else job_ids ++ [j]
          | none => job_ids)
        acc).Nodup := by
  induction lines generalizing acc with
  | nil => exact hacc
  | cons l rest ih =>
    rw [List.foldl_cons]
    apply ih
    cases hm : matchPollId l with
    | some j =>
      by_cases hj : j ∈ acc
      · simpa [hj] using hacc
      · simp only [if_neg hj]
        refine List.Nodup.append hacc (List.nodup_singleton j) ?_
        intro x hx hxj
        rw [List.mem_singleton] at hxj
        exact hj (hxj ▸ hx)
    | none => exact hacc

/-- C6 counterexample: the claim states that every poll-output line that
fails to match the ID pattern is reported to the caller as a structured
error.  `filter_poll_many_output` returns a bare list of IDs: a
non-matching line leaves the result identical to the run without that
line, and an all-non-matching output returns the empty list — nothing is
reported. -/
theorem c6_counterexample :
    filter_poll_many_output "squeue: error\n 123" =
      filter_poll_many_output " 123" ∧
    filter_poll_many_output "squeue: error" = [] := by
  constructor <;> rfl

/-- C6 amended: lines that fail to match the job-ID extraction pattern are
silently skipped; the extraction returns exactly the IDs of matching lines
and has no error channel at all. -/
theorem c6_nonmatching_lines_skipped (out : String) (i : String) :
    i ∈ filter_poll_many_output out ↔
      ∃ line ∈ splitlines out, matchPollId line = some i := by
  unfold filter_poll_many_output
  rw [mem_pollFold]
  simp

/-- C7: poll-output IDs are extracted deduplicated — every extracted ID
appears exactly once even when the same numeric identifier begins several
lines under different heterogeneous-job decorations — and the extraction
pattern accepts any number of leading spaces before the digit run,
stopping at the first non-digit (so `123`, `123+0`, ` 123+1` all reduce to
`123`). -/
theorem c7_dedup_and_whitespace (out : String) :
    (filter_poll_many_output out).Nodup ∧
    (∀ i, i ∈ filter_poll_many_output out →
      (filter_poll_many_output out).count i = 1) ∧
    (∀ (k : Nat) (ds tl : List Char), ds ≠ [] →
      (∀ c ∈ ds, c.isDigit = true) →
      (∀ c, tl.head? = some c → c.isDigit = false) →
      matchPollId (String.mk (List.replicate k ' ' ++ ds ++ tl))
        = some (String.mk ds)) := by
  refine ⟨nodup_pollFold _ [] List.nodup_nil, ?_, ?_⟩
  · intro i hi
    exact List.count_eq_one_of_mem (nodup_pollFold _ [] List.nodup_nil) hi
  · intro k ds tl hne hds htl
    obtain ⟨d, ds2, rfl⟩ := List.exists_cons_of_ne_nil hne
    have hd : d.isDigit = true := hds d (List.mem_cons_self _ _)
    have hdne : ¬d = ' ' := by
      intro hsp
      rw [hsp] at hd
      exact absurd hd (by decide)
    have hdrop :
        ((List.replicate k ' ' ++ (d :: ds2) ++ tl).dropWhile (fun c => c = ' '))
          = (d :: ds2) ++ tl := by
      rw [List.append_assoc, List.dropWhile_append]
      have h1 : (List.replicate k ' ').dropWhile (fun c => decide (c = ' ')) = [] := by
        rw [List.dropWhile_replicate]
        simp
      rw [h1]
      simp only [List.isEmpty_nil, if_pos rfl]
      show ((d :: ds2) ++ tl).dropWhile (fun c => decide (c = ' ')) = (d :: ds2) ++ tl
      rw [List.cons_append, List.dropWhile_cons]
      simp [hdne]
    have htake : ((d :: ds2) ++ tl).takeWhile Char.isDigit = d :: ds2 := by
      rw [List.takeWhile_append]
      have hself : (d :: ds2).takeWhile Char.isDigit = d :: ds2 :=
        List.takeWhile_eq_self_iff.mpr hds
      rw [hself, if_pos rfl]
      have htl0 : tl.takeWhile Char.isDigit = [] := by
        cases tl with
        | nil => rfl
        | cons c tl2 =>
          rw [List.takeWhile_cons]
          simp [htl c rfl]
      rw [htl0, List.append_nil]
    unfold matchPollId
    show (if ((String.mk (List.replicate k ' ' ++ (d :: ds2) ++ tl)).data.dropWhile
          (fun c => c = ' ')).takeWhile Char.isDigit = ([] : List Char) then none
        else some (String.mk (((String.mk (List.replicate k ' ' ++ (d :: ds2) ++ tl)).data.dropWhile
          (fun c => c = ' ')).takeWhile Char.isDigit))) = some (String.mk (d :: ds2))
    have hdata : (String.mk (List.replicate k ' ' ++ (d :: ds2) ++ tl)).data
        = List.replicate k ' ' ++ (d :: ds2) ++ tl := rfl
    rw [hdata, hdrop, htake, if_neg (by simp)]

/-- C7 witness: the heterogeneous-decorated poll output
`"123\n123+0\n 123+1"` yields the identifier `123` exactly once, and the
pattern accepts one leading space before `123+1`. -/
theorem c7_witness :
    (filter_poll_many_output "123\n123+0\n 123+1").count "123" = 1 ∧
    matchPollId (String.mk (List.replicate 1 ' ' ++ ['1', '2', '3'] ++ ['+', '1']))
      = some (String.mk ['1', '2', '3']) :=
  ⟨(c7_dedup_and_whitespace "123\n123+0\n 123+1").2.1 "123" (by decide),
   (c7_dedup_and_whitespace "").2.2 1 ['1', '2', '3'] ['+', '1']
     (by decide) (by decide) (by decide)⟩

/-- C5 counterexample: the claim states that a failure to resolve the
owner's home directory is returned to the caller as a structured error and
never raised as a process-fatal exception.  The constructor does the
opposite: when `pwd.getpwnam` fails it executes
`raise SystemExit("ERROR: ...")` — embedded as `.error (.systemExit _)` —
which is the process-fatal path, not a structured per-task result. -/
theorem c5_counterexample :
    jobSubmitInit ⟨false, none, none, none⟩ ⟨"bob", fun _ => none⟩
        ⟨"t1", "run-model", some "alice", none⟩
      = .error (.systemExit "ERROR: task t1 owner (alice): home dir not found") :=
  rfl

/-- C5 amended: for a local (non-simulation) submission whose resolved
owner has no entry in the identity database, the constructor raises
`SystemExit` with a message naming the task and the owner — a fatal abort
of that construction rather than a structured return. -/
theorem c5_homedir_failure_raises (cv : ClassVars) (env : IdentityEnv)
    (a : InitArgs) (hrh : a.remote_host = none)
    (hgrh : cv.global_remote_host = none) (hsim : cv.simulation_mode = false)
    (hpwd : env.pwdHome (resolveOwner cv env.user a).1 = none) :
    jobSubmitInit cv env a =
      .error (.systemExit ("ERROR: task " ++ a.task_id ++ " owner (" ++
        (resolveOwner cv env.user a).1 ++ "): home dir not found")) := by
  unfold jobSubmitInit
  rw [hrh, hgrh, hsim]
  simp only [Option.isSome_none, Bool.or_self, Bool.false_eq_true, if_false,
    if_neg (by simp : ¬(false = true))]
  rcases hro : resolveOwner cv env.user a with ⟨o, b⟩
  rw [hro] at hpwd
  simp only at hpwd
  simp [hpwd]

/-- C5 witness: a concrete local submission for owner `alice`, absent from
the identity database, aborts with the `SystemExit` error. -/
theorem c5_witness :
    jobSubmitInit ⟨false, some "tX", some "carol", none⟩ ⟨"bob", fun _ => none⟩
        ⟨"t2", "run-model", none, none⟩
      = .error (.systemExit "ERROR: task t2 owner (carol): home dir not found") :=
  c5_homedir_failure_raises ⟨false, some "tX", some "carol", none⟩
    ⟨"bob", fun _ => none⟩ ⟨"t2", "run-model", none, none⟩ rfl rfl rfl rfl

/-- C3 counterexample: the claim states that with the simulation flag set
the resolved locality and owner are unchanged relative to the flag being
unset.  With a remote host configured, the simulation run resolves to a
local submission while the real run resolves to a remote one (and for a
local owned task the simulation run forces the owner to the suite owner,
here shown with the remote case). -/
theorem c3_counterexample :
    (jobSubmitInit ⟨true, none, none, none⟩ ⟨"bob", fun _ => some "/home/bob"⟩
        ⟨"t1", "run-model", none, some "hpc"⟩
      = .ok ⟨dummy_command, "bob", false, true, none⟩) ∧
    (jobSubmitInit ⟨false, none, none, none⟩ ⟨"bob", fun _ => some "/home/bob"⟩
        ⟨"t1", "run-model", none, some "hpc"⟩
      = .ok ⟨"run-model", "bob", false, false, none⟩) :=
  ⟨rfl, rfl⟩

/-- C3 amended: with the simulation flag set the command is replaced by
the stub (failing stub for the designated failout task), but locality and
ownership are altered rather than preserved: every submission resolves
local (remote hosts are ignored), and when no remote host is configured
the task owner is forced to the suite owner. -/
theorem c3_simulation_forces_local (cv : ClassVars) (env : IdentityEnv)
    (a : InitArgs) (st : InitState) (hsim : cv.simulation_mode = true)
    (hok : jobSubmitInit cv env a = .ok st) :
    st.task_command =
      (if cv.failout_id ≠ some a.task_id then dummy_command
       else dummy_command_fail) ∧
    st.local_job_submit = true ∧
    (a.remote_host = none → cv.global_remote_host = none →
      st.task_owner = env.user) := by
  unfold jobSubmitInit at hok
  rw [hsim] at hok
  simp only [] at hok
  rcases hro : resolveOwner cv env.user a with ⟨o, b⟩
  rw [hro] at hok
  simp only [] at hok
  by_cases hrem : (a.remote_host.isSome || cv.global_remote_host.isSome) = true
  · rw [if_pos hrem] at hok
    simp only [if_true] at hok
    have hst : st = ⟨if cv.failout_id ≠ some a.task_id then dummy_command
        else dummy_command_fail, o, b, true, none⟩ := by
      injection hok with h
      exact h.symm
    subst hst
    refine ⟨rfl, rfl, ?_⟩
    intro h1 h2
    rw [h1, h2] at hrem
    exact absurd hrem (by simp)
  · rw [if_neg hrem] at hok
    simp only [if_true] at hok
    cases hpwd : env.pwdHome env.user with
    | some h =>
      rw [hpwd] at hok
      have hst : st = ⟨if cv.failout_id ≠ some a.task_id then dummy_command
          else dummy_command_fail, env.user, b, true, some h⟩ := by
        injection hok with hh
        exact hh.symm
      subst hst
      exact ⟨rfl, rfl, fun _ _ => rfl⟩
    | none =>
      rw [hpwd] at hok
      exact absurd hok (by simp)

/-- C3 witness: a simulation-mode submission with a remote host and an
explicit owner — the command is the stub, the submission is local. -/
theorem c3_witness :
    (InitState.mk dummy_command "alice" true true none).task_command
        = dummy_command ∧
    (InitState.mk dummy_command "alice" true true none).local_job_submit = true :=
  have h := c3_simulation_forces_local ⟨true, none, none, none⟩
    ⟨"bob", fun _ => some "/home/bob"⟩ ⟨"t1", "run-model", some "alice", some "hpc"⟩
    (InitState.mk dummy_command "alice" true true none) rfl rfl
  ⟨h.1, h.2.1⟩

/-! ## C4: heterogeneous-group separator placement -/

/-- The group indices carried by the keys of a directive list, in order. -/
def groupsOf (ds : List (String × String)) : List String :=
  ds.filterMap (fun kv => (hetGroup kv.1).map Prod.fst)

/-- The `seen` set of the emission loop after processing `ds`, starting
from `seen`. -/
def seenAfter (seen : List String) (ds : List (String × String)) : List String :=
  ds.foldl
    (fun s kv =>
      match hetGroup kv.1 with
      | some p => p.1 :: s
      | none => s)
    seen

theorem emitAux_append (xs ys : List (String × String)) (seen : List String) :
    emitAux seen (xs ++ ys) = emitAux seen xs ++ emitAux (seenAfter seen xs) ys := by
  induction xs generalizing seen with
  | nil => rfl
  | cons kv xs ih =>
    obtain ⟨k, v⟩ := kv
    have hstep : seenAfter seen ((k, v) :: xs)
        = seenAfter
            (match hetGroup k with
             | some p => p.1 :: seen
             | none => seen) xs := rfl
    rw [hstep]
    simp only [List.cons_append, emitAux]
    cases hg : hetGroup k with
    | some p =>
      obtain ⟨n, nk⟩ := p
      simp [ih, List.append_assoc]
    | none =>
      simp [ih]

theorem seenAfter_mem (pre : List (String × String)) (seen : List String)
    (x : String) :
    x ∈ seenAfter seen pre ↔ x ∈ seen ∨ x ∈ groupsOf pre := by
  induction pre generalizing seen with
  | nil => simp [seenAfter, groupsOf]
  | cons kv pre ih =>
    obtain ⟨k, v⟩ := kv
    have hstep : seenAfter seen ((k, v) :: pre)
        = seenAfter
            (match hetGroup k with
             | some p => p.1 :: seen
             | none => seen) pre := rfl
    rw [hstep]
    cases hg : hetGroup k with
    | some p =>
      rw [ih]
      simp only [groupsOf, List.filterMap_cons, hg, Option.map_some',
        List.mem_cons]
      tauto
    | none =>
      rw [ih]
      simp only [groupsOf, List.filterMap_cons, hg, Option.map_none']

/-- C4: placement of the heterogeneous-group separator.  Decompose the
ordered directives around any entry `(k, v)`.  If `k` carries group prefix
`n` with `n ≠ "0"` and `n` not among the groups of the preceding entries
(first encounter of the group), the output is the output for the prefix,
then the separator line immediately before this directive's line; at every
other position — a repeated group index, the group `"0"`, or an unprefixed
key — no separator is inserted before the directive's line.  Hence the
separator appears exactly once per group index other than `"0"`, at that
group's first directive, and never before a group-`"0"` or non-prefixed
directive, regardless of ordering within groups. -/
theorem c4_het_separator_placement (ds pre post : List (String × String))
    (k v : String) (hds : ds = pre ++ (k, v) :: post) :
    (∀ n nk, hetGroup k = some (n, nk) →
      ((n ≠ "0" ∧ n ∉ groupsOf pre →
        emitAux [] ds = emitAux [] pre ++ SEP_HETJOB :: mkLine nk v ::
          emitAux (n :: seenAfter [] pre) post) ∧
       (n = "0" ∨ n ∈ groupsOf pre →
        emitAux [] ds = emitAux [] pre ++ mkLine nk v ::
          emitAux (n :: seenAfter [] pre) post))) ∧
    (hetGroup k = none →
      emitAux [] ds = emitAux [] pre ++ mkLine k v ::
        emitAux (seenAfter [] pre) post) := by
  subst hds
  rw [emitAux_append]
  constructor
  · intro n nk hg
    constructor
    · rintro ⟨hn0, hnm⟩
      have hnotin : n ∉ seenAfter [] pre := by
        rw [seenAfter_mem]
        simp [hnm]
      simp only [emitAux, hg, if_pos (And.intro hn0 hnotin)]
      rfl
    · intro hin
      have hneg : ¬(n ≠ "0" ∧ n ∉ seenAfter [] pre) := by
        rcases hin with h0 | hmem
        · intro hc
          exact hc.1 h0
        · intro hc
          exact hc.2 ((seenAfter_mem pre [] n).mpr (Or.inr hmem))
      simp only [emitAux, hg, if_neg hneg]
      rfl
  · intro hg
    simp only [emitAux, hg]

/-- C4 witness: the docstring's example ordering — two group-`"0"`
directives, then the first group-`"1"` directive: the separator is
emitted exactly there. -/
theorem c4_witness :
    emitAux [] [("--account", "QXZ5W2"), ("hetjob_0_--mem", "1G"),
        ("hetjob_0_--nodes", "3"), ("hetjob_1_--mem", "2G"),
        ("hetjob_0_--nodes", "6")]
      = emitAux [] [("--account", "QXZ5W2"), ("hetjob_0_--mem", "1G"),
          ("hetjob_0_--nodes", "3")] ++
        SEP_HETJOB :: mkLine "--mem" "2G" ::
          emitAux ("1" :: seenAfter []
              [("--account", "QXZ5W2"), ("hetjob_0_--mem", "1G"),
                ("hetjob_0_--nodes", "3")])
            [("hetjob_0_--nodes", "6")] :=
  (((c4_het_separator_placement
      [("--account", "QXZ5W2"), ("hetjob_0_--mem", "1G"),
        ("hetjob_0_--nodes", "3"), ("hetjob_1_--mem", "2G"),
        ("hetjob_0_--nodes", "6")]
      [("--account", "QXZ5W2"), ("hetjob_0_--mem", "1G"),
        ("hetjob_0_--nodes", "3")]
      [("hetjob_0_--nodes", "6")]
      "hetjob_1_--mem" "2G" rfl).1 "1" "--mem" (by decide)).1)
    (by decide)

end Cylc
